import Mathlib

/-!
Verification of the request-dispatch and process-execution core of the
`just-mcp` server (source: `src/index.ts`).

Modelling conventions:
* JavaScript runtime values arriving in the argument bag are modelled by
  the inductive type `JSValue` (numbers are modelled as integers; no
  arithmetic is performed on them by the program).
* A thrown JavaScript `Error` is modelled by `Except String`, carrying the
  error message.
* The asynchronous executor `execJust` is modelled as a state machine: the
  Node event handlers (`stdout data`, `stderr data`, timer expiry, `close`,
  `error`) become a `step` function over an explicit `ExecState`, and one
  execution is a fold of `step` over a finite trace of events.  Resolving
  the promise is modelled by `resolveOnce` (a promise resolves at most
  once); `clearTimeout` is modelled by setting `timerPending := false`, and
  a cleared timer never fires (the `timerFire` step is guarded by
  `timerPending`).
-/

/-- JavaScript values as received in the untyped argument bag
    (`Record<string, unknown>`). -/
inductive JSValue where
  | str (s : String)
  | num (n : Int)
  | boolean (b : Bool)
  | arr (xs : List JSValue)
  | nullV
  | undefined

/-- `DEFAULT_TIMEOUT = 300000` (5 minutes), from `src/index.ts` line 12. -/
def DEFAULT_TIMEOUT : Int := 300000

/-- JavaScript `String.prototype.trim`, modelled on the character list:
    drop whitespace from both ends. -/
def jsTrim (l : List Char) : List Char :=
  ((l.dropWhile Char.isWhitespace).reverse.dropWhile Char.isWhitespace).reverse

/-- One character of the class `[a-zA-Z0-9_-]` from the validation regex. -/
def recipeChar (c : Char) : Bool :=
  c.isAlphanum || c = '_' || c = '-'

/-- The regex test `/^[a-zA-Z0-9_-]+$/.test(name)`: the whole string is a
    non-empty run of characters of the class. -/
def validRecipePattern (l : List Char) : Bool :=
  !l.isEmpty && l.all recipeChar

/-- `validateRecipeName` from `src/index.ts` lines 87-98.  The JS guard
    `typeof name !== "string" || !name.trim()` rejects non-strings and
    strings whose trim is empty (the empty string is falsy). -/
def validateRecipeName (v : JSValue) : Except String String :=
  match v with
  | JSValue.str name =>
    if (jsTrim name.data).isEmpty then
      Except.error ("Recipe name must be a non-empty string")
    else if name.data.head? = some '-' then
      Except.error ("Recipe name cannot start with '-'")
    else if !validRecipePattern name.data then
      Except.error ("Recipe name contains invalid characters")
    else
      Except.ok name
  | _ => Except.error ("Recipe name must be a non-empty string")

/-- `getBaseArgs` from `src/index.ts` lines 100-106.  The JS guard
    `justfile && typeof justfile === "string"` is falsy for the empty
    string, so an empty path is not appended. -/
def getBaseArgs (justfile : Option String) : List String :=
  match justfile with
  | some j => if j = "" then ["--color=never"] else ["--color=never", "--justfile", j]
  | none => ["--color=never"]

/-- The normalized result of one execution: captured stdout, captured
    stderr, and the exit code (`src/index.ts` line 112). -/
structure Outcome where
  stdout : String
  stderr : String
  exitCode : Int
deriving DecidableEq, Repr

/-- `formatResult` from `src/index.ts` lines 176-181, with JS string
    truthiness (`if (result.stderr)`, `output ? ... : ...`,
    `output || ...`) spelled out as emptiness tests. -/
def formatResult (r : Outcome) : String :=
  let output := r.stdout
  let output := if r.stderr = "" then output
    else output ++ (if output = "" then "" else "\n") ++ r.stderr
  let output := if r.exitCode = 0 then output
    else output ++ ("\n[Exit code: " ++ toString r.exitCode ++ "]")
  if output = "" then "Command completed successfully" else output

/-- The argument bag of one request: `Record<string, unknown>`. -/
def ArgBag : Type := List (String × JSValue)

/-- Property access `args.key` on the bag: the bound value, or
    `undefined` when the key is absent. -/
def getArg (args : ArgBag) (key : String) : JSValue :=
  match List.find? (fun kv => kv.fst == key) args with
  | some kv => kv.snd
  | none => JSValue.undefined

/-- `typeof v === "string" ? v : undefined` (used for `working_directory`
    and `justfile` in `handleTool`, lines 147-148). -/
def coerceStr (v : JSValue) : Option String :=
  match v with
  | JSValue.str s => some s
  | _ => none

/-- `typeof args.timeout === "number" ? args.timeout : DEFAULT_TIMEOUT`
    (`src/index.ts` line 158). -/
def coerceTimeout (v : JSValue) : Int :=
  match v with
  | JSValue.num n => n
  | _ => DEFAULT_TIMEOUT

/-- `Array.isArray(args.args) ? args.args.filter(a => typeof a === "string") : []`
    (`src/index.ts` lines 160-162): only string elements are kept. -/
def coerceArgList (v : JSValue) : List String :=
  match v with
  | JSValue.arr xs => xs.filterMap coerceStr
  | _ => []

/-- What `handleTool` passes to `execJust`: the argument vector, the
    working directory (when a string was supplied) and the timeout. -/
structure ExecPlan where
  argv : List String
  workingDir : Option String
  timeout : Int
deriving DecidableEq, Repr

/-- The translation phase of `handleTool` (`src/index.ts` lines 146-174):
    coerces the loosely-typed bag, validates the recipe name where one is
    required, and builds the subprocess invocation; the `default` branch
    throws `Unknown tool: <name>`.  `list` and `show` call `execJust`
    without a timeout argument, so they always get `DEFAULT_TIMEOUT`. -/
def handleToolPlan (name : String) (args : ArgBag) : Except String ExecPlan :=
  let workingDir := coerceStr (getArg args "working_directory")
  let justfile := coerceStr (getArg args "justfile")
  let baseArgs := getBaseArgs justfile
  if name = "list" then
    Except.ok { argv := baseArgs ++ ["--list"], workingDir := workingDir,
                timeout := DEFAULT_TIMEOUT }
  else if name = "run" then
    match validateRecipeName (getArg args "recipe") with
    | Except.error m => Except.error m
    | Except.ok recipe =>
      Except.ok { argv := baseArgs ++ recipe :: coerceArgList (getArg args "args"),
                  workingDir := workingDir,
                  timeout := coerceTimeout (getArg args "timeout") }
  else if name = "show" then
    match validateRecipeName (getArg args "recipe") with
    | Except.error m => Except.error m
    | Except.ok recipe =>
      Except.ok { argv := baseArgs ++ ["--show", recipe], workingDir := workingDir,
                  timeout := DEFAULT_TIMEOUT }
  else
    Except.error ("Unknown tool: " ++ name)

/-- `handleTool` end to end, with the executor abstracted as an oracle
    from the execution plan to the outcome it resolves with: translation
    errors propagate (are thrown), otherwise the outcome is formatted. -/
def handleTool (exec : ExecPlan → Outcome) (name : String) (args : ArgBag) :
    Except String String :=
  match handleToolPlan name args with
  | Except.error m => Except.error m
  | Except.ok plan => Except.ok (formatResult (exec plan))

/-- The response shape produced by the CallTool request handler: a text
    blob, and whether the error flag is set. -/
structure Response where
  text : String
  isError : Bool
deriving DecidableEq, Repr

/-- The CallTool request handler (`src/index.ts` lines 190-199): runs
    `handleTool` inside try/catch; a thrown error becomes a failure
    response with text `Error: <message>` and the error flag set. -/
def dispatch (exec : ExecPlan → Outcome) (name : String) (args : ArgBag) : Response :=
  match handleTool exec name args with
  | Except.ok t => { text := t, isError := false }
  | Except.error m => { text := "Error: " ++ m, isError := true }

/-- The events a running `execJust` invocation can observe: data on either
    stream, the timeout timer firing, the process closing with an optional
    exit status, or a spawn error. -/
inductive Event where
  | stdoutData (s : String)
  | stderrData (s : String)
  | timerFire
  | close (code : Option Int)
  | procError (msg : String)
deriving DecidableEq, Repr

/-- Whether an event is a pure stream-data event. -/
def Event.isData : Event → Bool
  | Event.stdoutData _ => true
  | Event.stderrData _ => true
  | _ => false

/-- The mutable state of one `execJust` invocation: the two accumulation
    buffers, the `timedOut` flag, whether the timeout timer is still
    pending, and the outcome the promise has resolved with (if any). -/
structure ExecState where
  stdout : String
  stderr : String
  timedOut : Bool
  timerPending : Bool
  result : Option Outcome
deriving DecidableEq, Repr

/-- `resolve(out)`: a promise resolves at most once; later calls are
    inert. -/
def resolveOnce (s : ExecState) (out : Outcome) : ExecState :=
  { s with result := match s.result with
                     | some r => some r
                     | none => some out }

/-- One event handler of `execJust` (`src/index.ts` lines 119-142).
    `timerFire` only happens while the timer is pending (a cleared timer
    never fires); the `close` and `error` handlers first `clearTimeout`,
    then resolve. -/
def step (s : ExecState) (e : Event) : ExecState :=
  match e with
  | Event.stdoutData d => { s with stdout := s.stdout ++ d }
  | Event.stderrData d => { s with stderr := s.stderr ++ d }
  | Event.timerFire =>
    if s.timerPending then { s with timedOut := true, timerPending := false } else s
  | Event.close code =>
    let s1 := { s with timerPending := false }
    if s1.timedOut then
      resolveOnce s1 { stdout := s1.stdout, stderr := s1.stderr ++ "\n[Process timed out]",
                       exitCode := 124 }
    else
      resolveOnce s1 { stdout := s1.stdout, stderr := s1.stderr,
                       exitCode := code.getD 1 }
  | Event.procError msg =>
    let s1 := { s with timerPending := false }
    resolveOnce s1 { stdout := "", stderr := msg, exitCode := 1 }

/-- The state at spawn time: empty buffers, timer armed, promise
    unresolved. -/
def initState : ExecState :=
  { stdout := "", stderr := "", timedOut := false, timerPending := true, result := none }

/-- One `execJust` invocation observing the finite event trace `evs`. -/
def execJustRun (evs : List Event) : ExecState :=
  List.foldl step initState evs

/-- The validity condition the specification states for recipe names: a
    non-empty, not all-whitespace string that does not start with a dash
    and matches the character class throughout. -/
def specValidRecipe (s : String) : Prop :=
  s.data ≠ [] ∧ ¬ (∀ c ∈ s.data, c.isWhitespace) ∧ s.data.head? ≠ some '-' ∧
    ∀ c ∈ s.data, recipeChar c

theorem isEmpty_false_iff_ne_nil {α : Type} (l : List α) : l.isEmpty = false ↔ l ≠ [] := by
  cases l <;> simp

theorem jsTrim_isEmpty_iff (l : List Char) :
    (jsTrim l).isEmpty = true ↔ ∀ c ∈ l, c.isWhitespace := by
  unfold jsTrim
  rw [List.isEmpty_iff, List.reverse_eq_nil_iff, List.dropWhile_eq_nil_iff]
  constructor
  · intro h c hc
    have hsplit : c ∈ l.takeWhile Char.isWhitespace ++ l.dropWhile Char.isWhitespace := by
      rw [List.takeWhile_append_dropWhile]
      exact hc
    rcases List.mem_append.mp hsplit with h1 | h2
    · exact List.mem_takeWhile_imp h1
    · exact h c (List.mem_reverse.mpr h2)
  · intro h c hc
    exact h c (List.Sublist.mem (List.mem_reverse.mp hc) (List.dropWhile_sublist _))

theorem validateRecipeName_str_ok_iff (t s : String) :
    validateRecipeName (JSValue.str t) = Except.ok s ↔ (s = t ∧ specValidRecipe t) := by
  simp only [validateRecipeName]
  split_ifs with h1 h2 h3
  · simp only [reduceCtorEq, false_iff, not_and]
    intro _ hspec
    exact hspec.2.1 ((jsTrim_isEmpty_iff t.data).mp h1)
  · simp only [reduceCtorEq, false_iff, not_and]
    intro _ hspec
    exact hspec.2.2.1 h2
  · simp only [reduceCtorEq, false_iff, not_and]
    intro _ hspec
    have hpat : validRecipePattern t.data = true := by
      unfold validRecipePattern
      simp only [Bool.and_eq_true, Bool.not_eq_true', isEmpty_false_iff_ne_nil,
        List.all_eq_true]
      exact ⟨hspec.1, hspec.2.2.2⟩
    simp [hpat] at h3
  · have hpat : validRecipePattern t.data = true := by
      cases hv : validRecipePattern t.data with
      | false => exact absurd (by simp [hv]) h3
      | true => rfl
    unfold validRecipePattern at hpat
    simp only [Bool.and_eq_true, Bool.not_eq_true', isEmpty_false_iff_ne_nil,
      List.all_eq_true] at hpat
    simp only [Except.ok.injEq]
    constructor
    · intro h
      exact ⟨h.symm, hpat.1,
        fun hall => h1 ((jsTrim_isEmpty_iff t.data).mpr hall), h2, hpat.2⟩
    · intro h
      exact h.1.symm

/-- C1: recipe-name validation succeeds, returning the name, exactly when
    the value is a string that is non-empty, not all-whitespace, does not
    start with a dash, and consists only of characters in
    `[a-zA-Z0-9_-]`; on every other value it fails with a thrown error. -/
theorem validateRecipeName_correct (v : JSValue) :
    (∀ s, validateRecipeName v = Except.ok s ↔ (v = JSValue.str s ∧ specValidRecipe s)) ∧
    ((∃ m, validateRecipeName v = Except.error m) ↔
      ∀ s, ¬ (v = JSValue.str s ∧ specValidRecipe s)) := by
  cases v with
  | str t =>
    constructor
    · intro s
      rw [validateRecipeName_str_ok_iff]
      constructor
      · rintro ⟨hst, hspec⟩
        exact ⟨by rw [hst], by rw [hst]; exact hspec⟩
      · rintro ⟨hv, hspec⟩
        injection hv with hv
        exact ⟨hv.symm, by rw [hv]; exact hspec⟩
    · by_cases hspec : specValidRecipe t
      · have hok : validateRecipeName (JSValue.str t) = Except.ok t :=
          (validateRecipeName_str_ok_iff t t).mpr ⟨rfl, hspec⟩
        rw [hok]
        constructor
        · rintro ⟨m, hm⟩
          cases hm
        · intro h
          exact absurd ⟨rfl, hspec⟩ (h t)
      · constructor
        · rintro ⟨m, _⟩ s ⟨hv, hs⟩
          injection hv with hv
          exact hspec (hv ▸ hs)
        · intro _
          cases hres : validateRecipeName (JSValue.str t) with
          | ok s =>
            have := (validateRecipeName_str_ok_iff t s).mp hres
            exact absurd this.2 hspec
          | error m => exact ⟨m, rfl⟩
  | num n => exact ⟨fun s => by simp [validateRecipeName], by simp [validateRecipeName]⟩
  | boolean b => exact ⟨fun s => by simp [validateRecipeName], by simp [validateRecipeName]⟩
  | arr xs => exact ⟨fun s => by simp [validateRecipeName], by simp [validateRecipeName]⟩
  | nullV => exact ⟨fun s => by simp [validateRecipeName], by simp [validateRecipeName]⟩
  | undefined => exact ⟨fun s => by simp [validateRecipeName], by simp [validateRecipeName]⟩

theorem foldl_dataOnly (evs : List Event) : ∀ s : ExecState, (∀ e ∈ evs, e.isData = true) →
    (List.foldl step s evs).timedOut = s.timedOut ∧
    (List.foldl step s evs).timerPending = s.timerPending ∧
    (List.foldl step s evs).result = s.result := by
  induction evs with
  | nil => exact fun s _ => ⟨rfl, rfl, rfl⟩
  | cons e evs ih =>
    intro s h
    have he := h e (List.mem_cons_self _ _)
    have hrest : ∀ x ∈ evs, x.isData = true := fun x hx => h x (List.mem_cons_of_mem _ hx)
    cases e with
    | stdoutData d => simpa [step] using ih (step s (Event.stdoutData d)) hrest
    | stderrData d => simpa [step] using ih (step s (Event.stderrData d)) hrest
    | timerFire => cases he
    | close c => cases he
    | procError m => cases he

theorem step_close_timerPending (s : ExecState) (c : Option Int) :
    (step s (Event.close c)).timerPending = false := by
  simp only [step, resolveOnce]
  split <;> rfl

theorem step_procError_timerPending (s : ExecState) (msg : String) :
    (step s (Event.procError msg)).timerPending = false := rfl

theorem step_close_result_timedOut (s : ExecState) (c : Option Int)
    (hr : s.result = none) (ht : s.timedOut = true) :
    (step s (Event.close c)).result =
      some { stdout := s.stdout, stderr := s.stderr ++ "\n[Process timed out]",
             exitCode := 124 } := by
  simp [step, resolveOnce, ht, hr]

theorem step_close_result_normal (s : ExecState) (c : Option Int)
    (hr : s.result = none) (ht : s.timedOut = false) :
    (step s (Event.close c)).result =
      some { stdout := s.stdout, stderr := s.stderr, exitCode := c.getD 1 } := by
  simp [step, resolveOnce, ht, hr]

theorem step_procError_result (s : ExecState) (msg : String) (hr : s.result = none) :
    (step s (Event.procError msg)).result =
      some { stdout := "", stderr := msg, exitCode := 1 } := by
  simp [step, resolveOnce, hr]

theorem resolved_timer_cleared (evs : List Event) : ∀ s : ExecState,
    (s.result.isSome = true → s.timerPending = false) →
    (List.foldl step s evs).result.isSome = true →
    (List.foldl step s evs).timerPending = false := by
  induction evs with
  | nil => exact fun s h => h
  | cons e evs ih =>
    intro s h
    refine ih (step s e) ?_
    cases e with
    | stdoutData d => exact h
    | stderrData d => exact h
    | timerFire =>
      by_cases hp : s.timerPending = true
      · intro _
        simp [step, hp]
      · have hid : step s Event.timerFire = s := by simp [step, hp]
        rw [hid]
        exact h
    | close c =>
      intro _
      exact step_close_timerPending s c
    | procError m =>
      intro _
      exact step_procError_timerPending s m

theorem run_after_timeout (s : ExecState) (mid : List Event) (c : Option Int)
    (hmid : ∀ e ∈ mid, e.isData = true)
    (ht : s.timedOut = true) (hr : s.result = none) :
    ∃ out, (List.foldl step s (mid ++ [Event.close c])).result = some out ∧
      out.exitCode = 124 ∧ (∃ p, out.stderr = p ++ "\n[Process timed out]") ∧
      (List.foldl step s (mid ++ [Event.close c])).timerPending = false := by
  rw [List.foldl_append]
  obtain ⟨ht3, hp3, hr3⟩ := foldl_dataOnly mid s hmid
  simp only [List.foldl_cons, List.foldl_nil]
  exact ⟨_, step_close_result_timedOut _ c (hr3.trans hr) (ht3.trans ht), rfl,
    ⟨_, rfl⟩, step_close_timerPending _ c⟩

theorem run_timeout_shape (pre mid : List Event) (c : Option Int)
    (hpre : ∀ e ∈ pre, e.isData = true) (hmid : ∀ e ∈ mid, e.isData = true) :
    ∃ out, (execJustRun (pre ++ Event.timerFire :: (mid ++ [Event.close c]))).result =
        some out ∧
      out.exitCode = 124 ∧ (∃ p, out.stderr = p ++ "\n[Process timed out]") ∧
      (execJustRun (pre ++ Event.timerFire :: (mid ++ [Event.close c]))).timerPending = false := by
  unfold execJustRun
  rw [List.foldl_append, List.foldl_cons]
  obtain ⟨ht1, hp1, hr1⟩ := foldl_dataOnly pre initState hpre
  have hp1' : (List.foldl step initState pre).timerPending = true := hp1.trans rfl
  have hr1' : (List.foldl step initState pre).result = none := hr1.trans rfl
  apply run_after_timeout
  · exact hmid
  · simp [step, hp1']
  · simp [step, hp1', hr1']

theorem run_close_shape (pre : List Event) (c : Option Int)
    (hpre : ∀ e ∈ pre, e.isData = true) :
    (execJustRun (pre ++ [Event.close c])).result =
      some { stdout := (execJustRun pre).stdout, stderr := (execJustRun pre).stderr,
             exitCode := c.getD 1 } ∧
    (execJustRun (pre ++ [Event.close c])).timerPending = false := by
  unfold execJustRun
  rw [List.foldl_append]
  obtain ⟨ht1, hp1, hr1⟩ := foldl_dataOnly pre initState hpre
  simp only [List.foldl_cons, List.foldl_nil]
  exact ⟨step_close_result_normal _ c (hr1.trans rfl) (ht1.trans rfl),
    step_close_timerPending _ c⟩

/-- C2: if the timer fires while the process is still running (only data
    events before it, then the process closes), the delivered outcome has
    exit code 124 and its stderr ends with the timeout marker; and on every
    trace, once an outcome is delivered the timer is no longer pending (the
    `close`/`error` handlers clear it before resolving). -/
theorem execJust_timeout_behavior :
    (∀ pre mid c, (∀ e ∈ pre, e.isData = true) → (∀ e ∈ mid, e.isData = true) →
      ∃ out, (execJustRun (pre ++ Event.timerFire :: (mid ++ [Event.close c]))).result =
          some out ∧
        out.exitCode = 124 ∧ (∃ p, out.stderr = p ++ "\n[Process timed out]") ∧
        (execJustRun (pre ++ Event.timerFire :: (mid ++ [Event.close c]))).timerPending = false) ∧
    (∀ evs, (execJustRun evs).result.isSome = true → (execJustRun evs).timerPending = false) := by
  constructor
  · exact run_timeout_shape
  · intro evs
    exact resolved_timer_cleared evs initState (fun h => by simp [initState] at h)

/-- C2 witness: a concrete timed-out trace, and a concrete completed trace
    whose timer is not pending. -/
theorem execJust_timeout_behavior_witness :
    (∃ out, (execJustRun [Event.timerFire, Event.close (some 0)]).result = some out ∧
      out.exitCode = 124 ∧ (∃ p, out.stderr = p ++ "\n[Process timed out]") ∧
      (execJustRun [Event.timerFire, Event.close (some 0)]).timerPending = false) ∧
    (execJustRun [Event.stdoutData "x", Event.close none]).timerPending = false := by
  constructor
  · exact execJust_timeout_behavior.1 [] [] (some 0)
      (fun e he => absurd he (List.not_mem_nil e))
      (fun e he => absurd he (List.not_mem_nil e))
  · exact execJust_timeout_behavior.2 [Event.stdoutData "x", Event.close none] rfl

/-- C4: a spawn failure (`error` event) never escapes as a thrown error:
    the promise resolves normally with exit code 1, empty stdout and the
    error message as stderr, and the timer is cleared. -/
theorem execJust_spawn_error (pre : List Event) (msg : String)
    (hpre : ∀ e ∈ pre, e.isData = true) :
    (execJustRun (pre ++ [Event.procError msg])).result =
      some { stdout := "", stderr := msg, exitCode := 1 } ∧
    (execJustRun (pre ++ [Event.procError msg])).timerPending = false := by
  unfold execJustRun
  rw [List.foldl_append]
  obtain ⟨ht1, hp1, hr1⟩ := foldl_dataOnly pre initState hpre
  simp only [List.foldl_cons, List.foldl_nil]
  exact ⟨step_procError_result _ msg (hr1.trans rfl), step_procError_timerPending _ msg⟩

/-- C4 witness: spawn failure with a concrete error message. -/
theorem execJust_spawn_error_witness :
    (execJustRun [Event.procError "spawn just ENOENT"]).result =
      some { stdout := "", stderr := "spawn just ENOENT", exitCode := 1 } ∧
    (execJustRun [Event.procError "spawn just ENOENT"]).timerPending = false :=
  execJust_spawn_error [] "spawn just ENOENT" (fun e he => absurd he (List.not_mem_nil e))

/-- C8 counterexample: a process that itself exits with status 124,
    without any timeout, also yields an outcome with exit code 124 — the
    sentinel is not exclusive to timeouts. -/
theorem exitCode_124_not_reserved :
    (execJustRun [Event.close (some 124)]).result =
      some { stdout := "", stderr := "", exitCode := 124 } ∧
    (execJustRun [Event.close (some 124)]).timedOut = false :=
  ⟨rfl, rfl⟩

/-- C8 (amended): a timed-out execution always reports exit code 124, but
    124 is not reserved: a non-timed-out close reports `code ?? 1`, which
    equals 124 exactly when the process's own exit status was 124. -/
theorem exitCode_124_characterization :
    (∀ pre mid c, (∀ e ∈ pre, e.isData = true) → (∀ e ∈ mid, e.isData = true) →
      ∃ out, (execJustRun (pre ++ Event.timerFire :: (mid ++ [Event.close c]))).result =
          some out ∧ out.exitCode = 124) ∧
    (∀ pre c, (∀ e ∈ pre, e.isData = true) →
      ∃ out, (execJustRun (pre ++ [Event.close c])).result = some out ∧
        (out.exitCode = 124 ↔ c = some 124)) := by
  constructor
  · intro pre mid c hpre hmid
    obtain ⟨out, hres, hcode, _, _⟩ := run_timeout_shape pre mid c hpre hmid
    exact ⟨out, hres, hcode⟩
  · intro pre c hpre
    obtain ⟨hres, _⟩ := run_close_shape pre c hpre
    refine ⟨_, hres, ?_⟩
    cases c with
    | none => simp
    | some k => simp

/-- C8 witness: a concrete timed-out trace reporting 124, and a concrete
    non-timed-out close whose code is 124 iff the process exited 124. -/
theorem exitCode_124_characterization_witness :
    (∃ out, (execJustRun [Event.timerFire, Event.close (some 0)]).result = some out ∧
      out.exitCode = 124) ∧
    (∃ out, (execJustRun [Event.close (some 7)]).result = some out ∧
      (out.exitCode = 124 ↔ (some 7 : Option Int) = some 124)) := by
  constructor
  · exact exitCode_124_characterization.1 [] [] (some 0)
      (fun e he => absurd he (List.not_mem_nil e))
      (fun e he => absurd he (List.not_mem_nil e))
  · exact exitCode_124_characterization.2 [] (some 7)
      (fun e he => absurd he (List.not_mem_nil e))

theorem ne_empty_of_data_ne (s : String) (h : s.data ≠ []) : s ≠ "" :=
  fun he => h (by rw [he])

theorem data_ne_of_ne_empty (s : String) (h : s ≠ "") : s.data ≠ [] := by
  intro hd
  cases s with
  | mk data =>
    cases hd
    exact h rfl

theorem append_ne_empty_left (s t : String) (h : s ≠ "") : s ++ t ≠ "" := by
  intro he
  have hd : (s ++ t).data = [] := by rw [he]
  rw [String.data_append] at hd
  exact data_ne_of_ne_empty s h (List.append_eq_nil.mp hd).1

theorem append_ne_empty_right (s t : String) (h : t ≠ "") : s ++ t ≠ "" := by
  intro he
  have hd : (s ++ t).data = [] := by rw [he]
  rw [String.data_append] at hd
  exact data_ne_of_ne_empty t h (List.append_eq_nil.mp hd).2

theorem exitMarker_ne_empty (n : Int) : ("\n[Exit code: " ++ toString n ++ "]") ≠ "" := by
  apply append_ne_empty_left
  apply append_ne_empty_left
  decide

/-- The formatting rule as the specification words it: stdout, then — when
    stderr is non-empty — stderr preceded by a separating newline exactly
    when stdout is non-empty, then — exactly when the exit code is
    nonzero — a trailing newline plus the exit-code marker; if the combined
    text is empty, the fixed no-output placeholder is substituted. -/
def formatResultSpec (r : Outcome) : String :=
  let combined := r.stdout
    ++ (if r.stderr = "" then "" else (if r.stdout = "" then "" else "\n") ++ r.stderr)
    ++ (if r.exitCode = 0 then "" else "\n[Exit code: " ++ toString r.exitCode ++ "]")
  if combined = "" then "Command completed successfully" else combined

/-- C3: `formatResult` computes exactly the text the specification
    describes — stdout, then stderr separated by a single newline only when
    stdout is non-empty, then a trailing exit-code marker exactly when the
    exit code is nonzero, with the placeholder substituted when the
    combined text is empty. -/
theorem formatResult_eq_spec (r : Outcome) : formatResult r = formatResultSpec r := by
  unfold formatResult formatResultSpec
  by_cases hse : r.stderr = "" <;> by_cases hso : r.stdout = "" <;>
    by_cases hc : r.exitCode = 0 <;>
      simp [hse, hso, hc, String.append_empty, String.empty_append, String.append_assoc,
        exitMarker_ne_empty, append_ne_empty_left, append_ne_empty_right]

/-- C10: with empty stdout, empty stderr and a nonzero exit code, the
    formatted text is exactly a newline followed by the exit-code marker;
    the no-output placeholder is not used. -/
theorem formatResult_empty_streams (n : Int) (h : n ≠ 0) :
    formatResult { stdout := "", stderr := "", exitCode := n } =
      "\n[Exit code: " ++ toString n ++ "]" := by
  unfold formatResult
  simp [h, String.empty_append, exitMarker_ne_empty]

/-- C10 witness: exit code 5 with no output. -/
theorem formatResult_empty_streams_witness :
    formatResult { stdout := "", stderr := "", exitCode := 5 } =
      "\n[Exit code: " ++ toString (5 : Int) ++ "]" :=
  formatResult_empty_streams 5 (by decide)

/-- C5: for every operation name, argument bag and executor behavior,
    dispatch produces exactly one of the two response shapes — the
    formatted success text with the error flag clear when handling does
    not throw, or `Error: <message>` with the error flag set when it
    throws; it never propagates an error itself. -/
theorem dispatch_shape (exec : ExecPlan → Outcome) (name : String) (args : ArgBag) :
    ((∃ t, handleTool exec name args = Except.ok t ∧
        dispatch exec name args = { text := t, isError := false }) ∨
      (∃ m, handleTool exec name args = Except.error m ∧
        dispatch exec name args = { text := "Error: " ++ m, isError := true })) ∧
    ¬ ((∃ t, dispatch exec name args = { text := t, isError := false }) ∧
       (∃ m, dispatch exec name args = { text := m, isError := true })) := by
  constructor
  · cases h : handleTool exec name args with
    | ok t => exact Or.inl ⟨t, rfl, by simp [dispatch, h]⟩
    | error m => exact Or.inr ⟨m, rfl, by simp [dispatch, h]⟩
  · rintro ⟨⟨t, ht⟩, ⟨m, hm⟩⟩
    rw [ht] at hm
    simp at hm

/-- C7: an operation name outside the registry is rejected before any
    subprocess work: the translator throws `Unknown tool: <name>`, and the
    dispatcher returns the flagged failure response, independently of the
    executor. -/
theorem unknown_tool_response (name : String) (args : ArgBag)
    (h1 : name ≠ "list") (h2 : name ≠ "run") (h3 : name ≠ "show") :
    handleToolPlan name args = Except.error ("Unknown tool: " ++ name) ∧
    ∀ exec, dispatch exec name args =
      { text := "Error: Unknown tool: " ++ name, isError := true } := by
  have hplan : handleToolPlan name args = Except.error ("Unknown tool: " ++ name) := by
    unfold handleToolPlan
    simp [h1, h2, h3]
  refine ⟨hplan, fun exec => ?_⟩
  simp only [dispatch, handleTool, hplan]
  congr 1

/-- C7 witness: the unregistered operation name `delete`. -/
theorem unknown_tool_response_witness :
    handleToolPlan "delete" ([] : ArgBag) = Except.error ("Unknown tool: delete") ∧
    dispatch (fun _ => { stdout := "", stderr := "", exitCode := 0 }) "delete"
        ([] : ArgBag) =
      { text := "Error: Unknown tool: delete", isError := true } := by
  have h := unknown_tool_response "delete" ([] : ArgBag) (by decide) (by decide) (by decide)
  exact ⟨h.1, h.2 (fun _ => { stdout := "", stderr := "", exitCode := 0 })⟩

/-- The example argument bag of the specification scenario. -/
def demoBag : ArgBag :=
  [("recipe", JSValue.str "build"), ("args", JSValue.arr [JSValue.str "--release"]),
   ("working_directory", JSValue.str "/repo")]

/-- C6: the argument vector per operation — the specification's example
    scenario, the base-args rule, and the general shape for `list`, `show`
    and `run` (extra `run` arguments are separate tokens). -/
theorem handleTool_argv (args : ArgBag) :
    handleToolPlan "run" demoBag = Except.ok
      { argv := ["--color=never", "build", "--release"], workingDir := some "/repo",
        timeout := 300000 } ∧
    getBaseArgs none = ["--color=never"] ∧
    (∀ j, j ≠ "" → getBaseArgs (some j) = ["--color=never", "--justfile", j]) ∧
    handleToolPlan "list" args = Except.ok
      { argv := getBaseArgs (coerceStr (getArg args "justfile")) ++ ["--list"],
        workingDir := coerceStr (getArg args "working_directory"),
        timeout := DEFAULT_TIMEOUT } ∧
    (∀ r, validateRecipeName (getArg args "recipe") = Except.ok r →
      handleToolPlan "show" args = Except.ok
        { argv := getBaseArgs (coerceStr (getArg args "justfile")) ++ ["--show", r],
          workingDir := coerceStr (getArg args "working_directory"),
          timeout := DEFAULT_TIMEOUT }) ∧
    (∀ r, validateRecipeName (getArg args "recipe") = Except.ok r →
      handleToolPlan "run" args = Except.ok
        { argv := getBaseArgs (coerceStr (getArg args "justfile")) ++
            r :: coerceArgList (getArg args "args"),
          workingDir := coerceStr (getArg args "working_directory"),
          timeout := coerceTimeout (getArg args "timeout") }) := by
  refine ⟨rfl, rfl, ?_, ?_, ?_, ?_⟩
  · intro j hj
    simp [getBaseArgs, hj]
  · simp [handleToolPlan]
  · intro r h
    simp [handleToolPlan, h]
  · intro r h
    simp [handleToolPlan, h]

/-- C6 witness: base args with a justfile path, and concrete `show` and
    `list` invocations derived from the general rule. -/
theorem handleTool_argv_witness :
    getBaseArgs (some "/jf") = ["--color=never", "--justfile", "/jf"] ∧
    handleToolPlan "show" demoBag = Except.ok
      { argv := ["--color=never", "--show", "build"], workingDir := some "/repo",
        timeout := 300000 } ∧
    handleToolPlan "run" demoBag = Except.ok
      { argv := ["--color=never", "build", "--release"], workingDir := some "/repo",
        timeout := 300000 } := by
  have h := handleTool_argv demoBag
  exact ⟨h.2.2.1 "/jf" (by decide), h.2.2.2.2.1 "build" rfl, h.2.2.2.2.2 "build" rfl⟩

/-- C9: a caller-supplied timeout reaches the executor only through the
    `run` operation: every `list` and `show` plan carries the default
    timeout of 300000 ms whatever the bag contains, while a `run` plan
    carries the coerced `timeout` argument. -/
theorem timeout_only_run :
    (∀ args : ArgBag, ∃ p, handleToolPlan "list" args = Except.ok p ∧
      p.timeout = DEFAULT_TIMEOUT) ∧
    (∀ (args : ArgBag) (p : ExecPlan), handleToolPlan "show" args = Except.ok p →
      p.timeout = DEFAULT_TIMEOUT) ∧
    (∀ (args : ArgBag) (p : ExecPlan), handleToolPlan "run" args = Except.ok p →
      p.timeout = coerceTimeout (getArg args "timeout")) := by
  refine ⟨?_, ?_, ?_⟩
  · intro args
    refine ⟨{ argv := getBaseArgs (coerceStr (getArg args "justfile")) ++ ["--list"],
              workingDir := coerceStr (getArg args "working_directory"),
              timeout := DEFAULT_TIMEOUT }, ?_, rfl⟩
    simp [handleToolPlan]
  · intro args p h
    simp only [handleToolPlan, if_true, if_false] at h
    cases hv : validateRecipeName (getArg args "recipe") with
    | error m =>
      rw [hv] at h
      cases h
    | ok recipe =>
      rw [hv] at h
      cases h
      rfl
  · intro args p h
    simp only [handleToolPlan, if_true, if_false] at h
    cases hv : validateRecipeName (getArg args "recipe") with
    | error m =>
      rw [hv] at h
      cases h
    | ok recipe =>
      rw [hv] at h
      cases h
      rfl

/-- C9 witness: with `timeout: 5` in the bag, `list` still plans the
    default timeout, a concrete `show` plan carries the default, and a
    concrete `run` plan carries the caller's value. -/
theorem timeout_only_run_witness :
    (∃ p, handleToolPlan "list" [("timeout", JSValue.num 5)] = Except.ok p ∧
      p.timeout = DEFAULT_TIMEOUT) ∧
    ExecPlan.timeout
        { argv := ["--color=never", "--show", "build"], workingDir := none,
          timeout := 300000 } =
      DEFAULT_TIMEOUT ∧
    ExecPlan.timeout
        { argv := ["--color=never", "build"], workingDir := none, timeout := 5 } =
      coerceTimeout
        (getArg [("recipe", JSValue.str "build"), ("timeout", JSValue.num 5)] "timeout") := by
  refine ⟨timeout_only_run.1 [("timeout", JSValue.num 5)], ?_, ?_⟩
  · exact timeout_only_run.2.1 [("recipe", JSValue.str "build"), ("timeout", JSValue.num 5)]
      { argv := ["--color=never", "--show", "build"], workingDir := none, timeout := 300000 }
      rfl
  · exact timeout_only_run.2.2 [("recipe", JSValue.str "build"), ("timeout", JSValue.num 5)]
      { argv := ["--color=never", "build"], workingDir := none, timeout := 5 }
      rfl
